import Mathlib

/-!
Shallow embedding of the Workflow Comparative Analysis Engine
(`analyze_wfs.py` and `str_wfs.py`): text normalization, the step
structural parser, the distinctive-term selection, the similarity
matrix computation, the corpus loader, and the aggregation/ranking
tables, together with theorems settling the specification claims.
-/

/-! ## Basic character / string helpers (Python semantics) -/

/-- The whitespace characters matched by Python's regex `\s` and stripped by
`str.strip()` (the ASCII range; the workflow texts are ASCII). -/
def pyIsSpace (c : Char) : Bool :=
  c == ' ' || c == '\t' || c == '\n' || c == '\r' || c == '\x0b' || c == '\x0c'

/-- Python `str.strip()`: removes leading and trailing whitespace. -/
def pyStrip (l : List Char) : List Char :=
  ((l.dropWhile pyIsSpace).reverse.dropWhile pyIsSpace).reverse

/-- Python `str.split('\n')`: splits at every newline, keeping empty segments. -/
def splitNl (l : List Char) : List (List Char) :=
  l.foldr (fun c acc => if c == '\n' then [] :: acc else (c :: acc.headD []) :: acc.tail) [[]]

/-- Value of a decimal digit run, as computed by Python `int(...)` on the
captured group of digits. -/
def natOfDigits (ds : List Char) : Nat :=
  ds.foldl (fun n c => n * 10 + (c.toNat - '0'.toNat)) 0

/-- Python substring test `needle in hay` on character lists. -/
def containsSub (needle : List Char) : List Char → Bool
  | [] => needle.isPrefixOf []
  | c :: rest => needle.isPrefixOf (c :: rest) || containsSub needle rest

/-! ## Step Structural Parser (`str_wfs.py`, `analyze_workflow`) -/

/-- The fixed keyword list `DEFINITIVE_INTERVENTION_KEYWORDS` of `str_wfs.py`. -/
def DEFINITIVE_INTERVENTION_KEYWORDS : List String :=
  ["surgery", "surgical", "transplant", "radiation", "dialysis",
   "fundoplication", "replacement", "ablation", "resection", "cut",
   "operative", "implant", "neuro", "graft", "laser", "artery", "steroids"]

/-- The regex `^\s*(\d+)\s*[\.\)]\s*` (`major_step_re`) applied with `re.match`:
returns the captured step number when the line starts with optional whitespace,
one or more digits, optional whitespace and `.` or `)`. -/
def matchMajor (l : List Char) : Option Nat :=
  let r := l.dropWhile pyIsSpace
  let ds := r.takeWhile Char.isDigit
  let rest := (r.dropWhile Char.isDigit).dropWhile pyIsSpace
  if ds.isEmpty then none
  else
    match rest with
    | '.' :: _ => some (natOfDigits ds)
    | ')' :: _ => some (natOfDigits ds)
    | _ => none

/-- The regex `^\s*[-*•]\s*` (`sub_step_re`) applied with `re.match`. -/
def matchSub (l : List Char) : Bool :=
  match l.dropWhile pyIsSpace with
  | c :: _ => c == '-' || c == '*' || c == '•'
  | [] => false

/-- `any(keyword in lower_line for keyword in DEFINITIVE_INTERVENTION_KEYWORDS)`
where `lower_line = line.lower()`. -/
def lineHasKeyword (line : List Char) : Bool :=
  DEFINITIVE_INTERVENTION_KEYWORDS.any fun k => containsSub k.data (line.map Char.toLower)

/-- The loop state of `analyze_workflow`: the three outputs plus
`current_major_step`. -/
structure WfState where
  major_steps : Nat
  sub_steps : Nat
  intervention_step_position : Option Nat
  current_major_step : Nat
deriving DecidableEq, Repr

/-- One iteration of the `for line in lines` loop of `analyze_workflow`:
major-step count and capture, sub-step count, then the intervention-position
check (which sees the values already updated by this very line). -/
def wfStep (s : WfState) (line : List Char) : WfState :=
  let mm := matchMajor line
  let major_steps := if mm.isSome then s.major_steps + 1 else s.major_steps
  let current_major_step := mm.getD s.current_major_step
  let sub_steps := if matchSub line then s.sub_steps + 1 else s.sub_steps
  let intervention_step_position :=
    match s.intervention_step_position with
    | some p => some p
    | none =>
      if lineHasKeyword line then
        if 0 < current_major_step then some current_major_step
        else if 0 < major_steps then some 1
        else none
      else none
  ⟨major_steps, sub_steps, intervention_step_position, current_major_step⟩

/-- `analyze_workflow(text)` of `str_wfs.py`: splits `text.strip()` on
newlines, folds the per-line state machine, and returns
`(major_steps, sub_steps, intervention_step_position)`. -/
def analyze_workflow (text : String) : Nat × Nat × Option Nat :=
  let lines := splitNl (pyStrip text.data)
  let s := lines.foldl wfStep ⟨0, 0, none, 0⟩
  (s.major_steps, s.sub_steps, s.intervention_step_position)

/-! ## Text Normalizer (`analyze_wfs.py`, `preprocess`) -/

/-- Scanner implementing `re.sub(r"\d+[\.\)]", " ", text)`: a maximal run of
digits immediately followed by `.` or `)` is replaced by one space (no shorter
run of the same digits can match, since the character after it is a digit).
The first argument accumulates the pending digit run, in reverse. -/
def subNumAux : List Char → List Char → List Char
  | pend, [] => pend.reverse
  | pend, c :: cs =>
    if c.isDigit then subNumAux (c :: pend) cs
    else if !pend.isEmpty && (c == '.' || c == ')') then ' ' :: subNumAux [] cs
    else pend.reverse ++ c :: subNumAux [] cs

/-- `preprocess(text)` of `analyze_wfs.py`: remove enumeration markers
(`\d+[\.\)]` → one space), then lowercase. -/
def preprocess (s : String) : String :=
  String.mk ((subNumAux [] s.data).map Char.toLower)

/-! ## Distinctive Term Extractor (`analyze_wfs.py`, `find_unique_terms`,
lines 50-53: `row.argsort()[-10:][::-1]`) -/

/-- The index order of a *stable* ascending argsort of `row`: index `i`
precedes `j` when its value is smaller, or on equal values when `i` comes
earlier in the row.  This agrees with numpy's default `argsort` exactly when
the array has at most 16 elements, where its introsort runs a single
insertion sort (stable); for longer arrays — the vocabulary here can have up
to `max_features=40` terms — numpy's quicksort is unstable and its order on
equal keys is implementation-defined, so every theorem below either carries
an explicit `≤ 16` length bound when it speaks about ties, or is invariant
under the order of equal keys.  (The default value is never consulted:
all compared indices are in range.) -/
def rIdx {α : Type} [LinearOrder α] [Zero α] (row : List α) (i j : Nat) : Prop :=
  row.getD i 0 < row.getD j 0 ∨ (row.getD i 0 = row.getD j 0 ∧ i ≤ j)

instance rIdxDecidable {α : Type} [LinearOrder α] [Zero α] (row : List α) :
    DecidableRel (rIdx row) := fun i j => by
  unfold rIdx; infer_instance

instance rIdxTotal {α : Type} [LinearOrder α] [Zero α] (row : List α) :
    IsTotal Nat (rIdx row) := by
  constructor
  intro i j
  rcases lt_trichotomy (row.getD i 0) (row.getD j 0) with h | h | h
  · exact Or.inl (Or.inl h)
  · rcases Nat.le_total i j with hij | hij
    · exact Or.inl (Or.inr ⟨h, hij⟩)
    · exact Or.inr (Or.inr ⟨h.symm, hij⟩)
  · exact Or.inr (Or.inl h)

instance rIdxTrans {α : Type} [LinearOrder α] [Zero α] (row : List α) :
    IsTrans Nat (rIdx row) := by
  constructor
  intro i j k hij hjk
  rcases hij with h1 | ⟨h1, h1'⟩ <;> rcases hjk with h2 | ⟨h2, h2'⟩
  · exact Or.inl (h1.trans h2)
  · exact Or.inl (h2 ▸ h1)
  · exact Or.inl (h1 ▸ h2)
  · exact Or.inr ⟨h1.trans h2, h1'.trans h2'⟩

/-- `row.argsort()`, modelled as the stable ascending index sort: faithful
to numpy (including tie order) for rows of at most 16 elements; for longer
rows only the ordering by value is guaranteed to agree — numpy's tie order
is then implementation-defined — and no theorem relies on ties beyond that
bound. -/
def argsortAsc {α : Type} [LinearOrder α] [Zero α] (row : List α) : List Nat :=
  List.insertionSort (rIdx row) (List.range row.length)

/-- `row.argsort()[-10:][::-1]` (`top_idxs` in `find_unique_terms`): the last
ten indices of the ascending argsort, reversed. -/
def topIdxs {α : Type} [LinearOrder α] [Zero α] (row : List α) : List Nat :=
  ((argsortAsc row).drop (row.length - 10)).reverse

/-- `[terms[j] for j in top_idxs]`: the per-source list built by
`find_unique_terms` from one tf-idf row and the shared vocabulary. -/
def topTermsOfRow {α : Type} [LinearOrder α] [Zero α] (row : List α)
    (terms : List String) : List String :=
  (topIdxs row).map fun j => terms.getD j ""

/-! ## Aggregator / Ranker (`str_wfs.py`, `structural_analysis`) -/

/-- The per-source accumulated totals of `structural_analysis`
(`results[site_key]`): `'major'`, `'sub'`, `'aggression_pos_sum'`,
`'aggression_count'`, `'count'`. -/
structure SrcAgg where
  major : Nat
  sub : Nat
  aggression_pos_sum : Nat
  aggression_count : Nat
  count : Nat
deriving DecidableEq, Repr

/-- Python `site.replace('wf', '')`: removes every occurrence of `wf`. -/
def removeWf : List Char → List Char
  | 'w' :: 'f' :: rest => removeWf rest
  | c :: rest => c :: removeWf rest
  | [] => []

/-- Python `str.title()` for ASCII text: the first letter of each letter run
is uppercased, the following letters lowercased. -/
def titleCase (l : List Char) : List Char :=
  go false l
where
  go : Bool → List Char → List Char
    | _, [] => []
    | prevAlpha, c :: rest =>
      if c.isAlpha then
        (if prevAlpha then c.toLower else c.toUpper) :: go true rest
      else c :: go false rest

/-- `site.replace('wf', '').title()`, the `'Source'` column value. -/
def sourceName (site : String) : String :=
  String.mk (titleCase (removeWf site.data))

/-- Python string comparison `a < b` (code-point lexicographic), the order
pandas `sort_values` applies to a column of strings. -/
def pyStrLtL : List Char → List Char → Bool
  | [], [] => false
  | [], _ :: _ => true
  | _ :: _, [] => false
  | a :: as, b :: bs =>
    if a.toNat < b.toNat then true
    else if b.toNat < a.toNat then false
    else pyStrLtL as bs

/-- Python `a < b` on strings. -/
def pyStrLt (a b : String) : Bool := pyStrLtL a.data b.data

/-- `f"{sum / count:.2f}"`: the average `sum / count`, rounded to hundredths
and printed with exactly two decimals.  (The averages compared in the
theorems below are exactly representable in binary, so the double-precision
detour of the Python code changes nothing.) -/
def avgFmt2 (sum count : Nat) : String :=
  let c := (200 * sum + count) / (2 * count)
  toString (c / 100) ++ "." ++
    (if c % 100 < 10 then "0" ++ toString (c % 100) else toString (c % 100))

/-- Table 1 of `structural_analysis` (`df_steps`): one row
`(Source, Avg Major Steps, Avg Sub-Steps, Total WFs Processed)` per source
with `count > 0`, sorted by `sort_values(by='Avg Major Steps',
ascending=False)` — a sort on the *formatted string* column, hence
lexicographic string comparison. -/
def df_steps (results : List (String × SrcAgg)) :
    List (String × String × String × Nat) :=
  let rows := results.filterMap fun p =>
    if p.2.count ≠ 0 then
      some (sourceName p.1, avgFmt2 p.2.major p.2.count,
            avgFmt2 p.2.sub p.2.count, p.2.count)
    else none
  List.insertionSort (fun r1 r2 => pyStrLt r1.2.1 r2.2.1 = false) rows

/-- Table 2 of `structural_analysis` (`df_aggression`): one row
`(Source, Avg Intervention Step Position, Applicable WFs Count)` per source
with `aggression_count > 0`, sorted by `sort_values(by='Avg Intervention Step
Position', ascending=True)` — again a sort on the formatted string column. -/
def df_aggression (results : List (String × SrcAgg)) :
    List (String × String × Nat) :=
  let rows := results.filterMap fun p =>
    if p.2.aggression_count ≠ 0 then
      some (sourceName p.1, avgFmt2 p.2.aggression_pos_sum p.2.aggression_count,
            p.2.aggression_count)
    else none
  List.insertionSort (fun r1 r2 => pyStrLt r2.2.1 r1.2.1 = false) rows

/-! ## Corpus Loader (`analyze_wfs.py`, `load_workflows`) -/

/-- The folder list `WF_FOLDERS` shared by both scripts. -/
def WF_FOLDERS : List String :=
  ["mayowf", "clevelandwf", "merckwf", "webmdwf", "wikiwf"]

/-- The first match of `re.findall(r"wf_(.*?)_", basename)`: scanning left to
right for `wf_`, the lazy capture is everything up to the next `_`; if no
later `_` exists the scan resumes one character further on. -/
def findWf : List Char → Option (List Char)
  | [] => none
  | c :: cs =>
    if c == 'w' && cs.take 2 == ['f', '_'] then
      let rest := cs.drop 2
      if rest.contains '_' then some (rest.takeWhile fun x => !(x == '_'))
      else findWf cs
    else findWf cs

/-- `re.findall(r"wf_(.*?)_", os.path.basename(f))[0]`, minus the `[0]`
indexing: `none` is the case in which the Python expression raises
`IndexError: list index out of range`. -/
def extractDisease (filename : String) : Option String :=
  (findWf filename.data).map String.mk

/-- `data[disease][folder] = text` on insertion-ordered dictionaries:
a new disease is appended, a new folder is appended inside its disease,
an existing (disease, folder) slot is overwritten in place. -/
def insertWf (data : List (String × List (String × String)))
    (d folder text : String) : List (String × List (String × String)) :=
  match data with
  | [] => [(d, [(folder, text)])]
  | (d', ws) :: rest =>
    if d' = d then (d', insertFolder ws) :: rest
    else (d', ws) :: insertWf rest d folder text
where
  insertFolder : List (String × String) → List (String × String)
    | [] => [(folder, text)]
    | (f', t') :: ws => if f' = folder then (f', text) :: ws else (f', t') :: insertFolder ws

/-- `load_workflows(root)` of `analyze_wfs.py`, over the directory listing
(folder → files in enumeration order, each file a `(filename, text)` pair):
iterates `WF_FOLDERS` in fixed order, skips absent folders, and groups texts
as `{disease → {folder → text}}`.  A filename without the `wf_..._` pattern
makes the whole call raise (`Except.error`), exactly as the unguarded `[0]`
indexing does in Python. -/
def load_workflows (listing : List (String × List (String × String))) :
    Except String (List (String × List (String × String))) :=
  WF_FOLDERS.foldlM (fun data folder =>
    match listing.lookup folder with
    | none => pure data
    | some files =>
      files.foldlM (fun data file =>
        match extractDisease file.1 with
        | none => Except.error "IndexError: list index out of range"
        | some d => pure (insertWf data d folder file.2)) data) []

/-! ## Similarity Matrix Engine (`analyze_wfs.py`, `compute_similarity`)

`sklearn.metrics.pairwise.cosine_similarity` L2-normalizes each row —
leaving a zero-norm row unchanged, exactly as `sklearn.preprocessing
.normalize` does — and then takes all pairwise dot products.  The tf-idf
weights are embedded as exact reals. -/

noncomputable section

/-- Dot product of two weight rows (`X @ Y.T` entry). -/
def dotL (v w : List ℝ) : ℝ := (List.zipWith (fun a b => a * b) v w).sum

/-- sklearn row normalization: a row with zero norm is left as-is (all
zeros), any other row is divided by its L2 norm. -/
def normL (v : List ℝ) : List ℝ :=
  if dotL v v = 0 then v else v.map fun x => x / Real.sqrt (dotL v v)

/-- One entry of `cosine_similarity`: the dot product of the two normalized
rows. -/
def cosSimL (v w : List ℝ) : ℝ := dotL (normL v) (normL w)

/-- `cosine_similarity(tfidf)`: the full pairwise matrix over the rows. -/
def cosineMatrixL (rows : List (List ℝ)) : List (List ℝ) :=
  rows.map fun r => rows.map fun r2 => cosSimL r r2

/-- Entry `M[i][j]` of a nested-list matrix (0 outside the index range). -/
def mEntry (M : List (List ℝ)) (i j : Nat) : ℝ :=
  (((M[i]?).getD [])[j]?).getD 0

/-- `compute_similarity(workflows)` of `analyze_wfs.py`, with the tf-idf
fitting step abstracted as the deterministic function `Vsim` from the
preprocessed document list to the weight rows: returns the site list (the
dict's insertion order) and the cosine-similarity matrix. -/
def compute_similarity (Vsim : List String → List (List ℝ))
    (workflows : List (String × String)) : List String × List (List ℝ) :=
  let sites := workflows.map fun p => p.1
  let texts := workflows.map fun p => preprocess p.2
  (sites, cosineMatrixL (Vsim texts))

/-- `find_unique_terms(workflows)` of `analyze_wfs.py`, with the capped
(`max_features=40`) tf-idf fitting abstracted as the deterministic function
`Vuniq` returning the weight rows and the shared vocabulary: each site is
paired with the `row.argsort()[-10:][::-1]` selection from its row. -/
def find_unique_terms (Vuniq : List String → List (List ℝ) × List String)
    (workflows : List (String × String)) : List (String × List String) :=
  let texts := workflows.map fun p => preprocess p.2
  let rows := (Vuniq texts).1
  let terms := (Vuniq texts).2
  ((workflows.map fun p => p.1).zip rows).map fun p => (p.1, topTermsOfRow p.2 terms)

/-- One disease's entry in the report produced by `analyze`. -/
structure ReportEntry where
  sites : List String
  similarity_matrix : List (List ℝ)
  unique_terms : List (String × List String)

/-- `analyze(root)` of `analyze_wfs.py` over the directory listing: loads the
corpus, skips diseases with fewer than two sources, and builds the per-disease
report entries.  A malformed filename propagates the loader's exception. -/
def analyze (Vsim : List String → List (List ℝ))
    (Vuniq : List String → List (List ℝ) × List String)
    (listing : List (String × List (String × String))) :
    Except String (List (String × ReportEntry)) :=
  (load_workflows listing).map fun data =>
    data.filterMap fun p =>
      if 2 ≤ p.2.length then
        some (p.1, ⟨(compute_similarity Vsim p.2).1, (compute_similarity Vsim p.2).2,
                    find_unique_terms Vuniq p.2⟩)
      else none

end

/-! ## Theorems -/

/-- Helper: a recorded intervention position is never overwritten by a later
line. -/
theorem wfStep_pos_preserved (s : WfState) (line : List Char) (p : Nat)
    (h : s.intervention_step_position = some p) :
    (wfStep s line).intervention_step_position = some p := by
  simp [wfStep, h]

/-- Claim C3: the intervention position follows the two-tier fallback exactly
— on a keyword line it is set to `current_major_step` when that is positive,
else to 1 when at least one major step has been counted, else left unset and
scanning continues; for `"Consider steroids\n1. Apply cream"` the result is
`major_steps = 1`, `sub_steps = 0` and no intervention position; and a
position, once recorded, is never overwritten. -/
theorem intervention_two_tier_fallback :
    analyze_workflow "Consider steroids\n1. Apply cream" = (1, 0, none)
    ∧ (∀ (s : WfState) (p : Nat) (lines : List (List Char)),
        s.intervention_step_position = some p →
        (lines.foldl wfStep s).intervention_step_position = some p)
    ∧ (∀ (s : WfState) (line : List Char),
        s.intervention_step_position = none → lineHasKeyword line = true →
        (wfStep s line).intervention_step_position =
          (if 0 < (wfStep s line).current_major_step then
            some (wfStep s line).current_major_step
           else if 0 < (wfStep s line).major_steps then some 1 else none))
    ∧ (∀ (s : WfState) (line : List Char),
        s.intervention_step_position = none → lineHasKeyword line = false →
        (wfStep s line).intervention_step_position = none) := by
  refine ⟨by decide, ?_, ?_, ?_⟩
  · intro s p lines h
    induction lines generalizing s with
    | nil => exact h
    | cons line rest ih =>
      exact ih (wfStep s line) (wfStep_pos_preserved s line p h)
  · intro s line h1 h2
    simp [wfStep, h1, h2]
  · intro s line h1 h2
    simp [wfStep, h1, h2]

/-- Witness for C3: the preservation part applied at a concrete state that
already holds position 5 and a later keyword-bearing numbered line. -/
theorem intervention_two_tier_fallback_witness :
    (List.foldl wfStep ⟨0, 0, some 5, 0⟩ ["2. surgery now".data]).intervention_step_position
      = some 5 :=
  intervention_two_tier_fallback.2.1 ⟨0, 0, some 5, 0⟩ 5 ["2. surgery now".data] rfl

/-- Claim C4: on `"1. Apply cream\n2. Consider surgery\n- use daily"` the
parser returns 2 major steps, 1 sub-step and intervention position 2; and on
every line matching the major-step regex, `current_major_step` becomes the
captured number (while the count merely increments). -/
theorem analyze_workflow_example_and_capture :
    analyze_workflow "1. Apply cream\n2. Consider surgery\n- use daily" = (2, 1, some 2)
    ∧ (∀ (s : WfState) (line : List Char) (n : Nat),
        matchMajor line = some n →
        (wfStep s line).current_major_step = n
        ∧ (wfStep s line).major_steps = s.major_steps + 1) := by
  refine ⟨by decide, ?_⟩
  intro s line n h
  simp [wfStep, h]

/-- Witness for C4: the capture part at a concrete line `"7) ok"` — the new
`current_major_step` is the captured 7, not the running count 1. -/
theorem analyze_workflow_capture_witness :
    (wfStep ⟨0, 0, none, 0⟩ "7) ok".data).current_major_step = 7
    ∧ (wfStep ⟨0, 0, none, 0⟩ "7) ok".data).major_steps = 0 + 1 :=
  analyze_workflow_example_and_capture.2 ⟨0, 0, none, 0⟩ "7) ok".data 7 (by decide)

/-- Helper: Python's `in` on character lists is exactly the contiguous
substring (infix) relation. -/
theorem containsSub_iff (n : List Char) : ∀ h : List Char,
    containsSub n h = true ↔ n <:+: h := by
  intro h
  induction h with
  | nil => simp [containsSub]
  | cons c t ih => simp [containsSub, List.infix_cons_iff, ih]

/-- Claim C10: intervention detection fires on any line whose lowercased text
contains one of the keywords as a contiguous substring anywhere — also inside
a longer word (`cut` inside `Execute`, `neuro` inside `Neurological`), not
only as a standalone word. -/
theorem keyword_substring_semantics :
    (∀ needle hay : List Char,
      containsSub needle hay = true ↔ ∃ pre post, pre ++ needle ++ post = hay)
    ∧ (∀ line : List Char,
      lineHasKeyword line = true ↔
        ∃ k ∈ DEFINITIVE_INTERVENTION_KEYWORDS,
          ∃ pre post, pre ++ k.data ++ post = line.map Char.toLower)
    ∧ analyze_workflow "1. Execute the plan" = (1, 0, some 1)
    ∧ analyze_workflow "1. Neurological exam" = (1, 0, some 1) := by
  refine ⟨fun n h => containsSub_iff n h, ?_, by decide, by decide⟩
  intro line
  simp only [lineHasKeyword, List.any_eq_true]
  constructor
  · rintro ⟨k, hk, hc⟩
    exact ⟨k, hk, (containsSub_iff k.data _).mp hc⟩
  · rintro ⟨k, hk, hc⟩
    exact ⟨k, hk, (containsSub_iff k.data _).mpr hc⟩

/-- Witness for C10: `cut` occurs inside `execute`, decomposed by the
substring characterization. -/
theorem keyword_substring_semantics_witness :
    ∃ pre post, pre ++ "cut".data ++ post = "execute".data :=
  (keyword_substring_semantics.1 "cut".data "execute".data).mp (by decide)

/-- Claim C8 (amended): `preprocess` replaces an integer only when it is
immediately followed by `.` or `)`; digit-free content is left untouched by
the substitution, bare integers survive, list markers `-` and `*` survive,
and the result is lowercased. -/
theorem preprocess_amended :
    (∀ l : List Char, (∀ c ∈ l, c.isDigit = false) → subNumAux [] l = l)
    ∧ preprocess "1. Apply 2) Use - daily * twice 3 times"
        = "  apply   use - daily * twice 3 times"
    ∧ preprocess "Take 3 pills" = "take 3 pills" := by
  refine ⟨?_, by decide, by decide⟩
  intro l
  induction l with
  | nil => intro _; rfl
  | cons c cs ih =>
    intro h
    have hc : c.isDigit = false := h c (by simp)
    simp [subNumAux, hc, ih fun x hx => h x (by simp [hx])]

/-- Witness for C8: the no-digit part of the amended claim at the concrete
hyphenated word `ab-c`. -/
theorem preprocess_amended_witness :
    subNumAux [] "ab-c".data = "ab-c".data :=
  preprocess_amended.1 "ab-c".data (by decide)

/-- Counterexample for C8 as stated: in `"Take 3 pills"` the bare integer
token `3` has no trailing `.` or `)` and is *not* replaced by a space — the
digit survives in the output, so not every integer token is removed. -/
theorem preprocess_bare_integer_counterexample :
    preprocess "Take 3 pills" = "take 3 pills"
    ∧ '3' ∈ (preprocess "Take 3 pills").data := by
  exact ⟨by decide, by decide⟩

/-- Claim C1 (amended): the list `find_unique_terms` builds for a source has
length `min 10 (vocabulary size)` regardless of how many weights are nonzero
— `argsort()[-10:]` keeps ten indices whenever the vocabulary has at least
ten terms, padding the selection with zero-weight terms. -/
theorem top_terms_length_min {α : Type} [LinearOrder α] [Zero α]
    (row : List α) (terms : List String) :
    (topTermsOfRow row terms).length = min 10 row.length := by
  have h1 : (argsortAsc row).length = row.length := by
    simp [argsortAsc, List.length_insertionSort]
  simp only [topTermsOfRow, topIdxs, List.length_map, List.length_reverse,
    List.length_drop, h1]
  omega

/-- Witness for C1 (amended): the length law at a concrete two-term row. -/
theorem top_terms_length_min_witness :
    (topTermsOfRow [(1 : ℚ), 2] ["a", "b"]).length = min 10 2 :=
  top_terms_length_min [(1 : ℚ), 2] ["a", "b"]

/-- Counterexample for C1 as stated: a row over a ten-term vocabulary with
exactly three nonzero weights still yields a ten-term list — the result is
padded with zero-weight terms instead of having length 3. -/
theorem top_terms_padded_counterexample :
    (topTermsOfRow [(5 : ℚ), 3, 2, 0, 0, 0, 0, 0, 0, 0]
      ["t0", "t1", "t2", "t3", "t4", "t5", "t6", "t7", "t8", "t9"]).length = 10
    ∧ (([(5 : ℚ), 3, 2, 0, 0, 0, 0, 0, 0, 0].filter fun x => !(x == 0)).length = 3)
    ∧ (10 : Nat) ≠ 3 := by
  exact ⟨by decide, by decide, by decide⟩

/-- Helper: in a `Pairwise R` list, if `R i j` fails for two distinct members
then `j` occurs strictly before `i`. -/
theorem pairwise_indexOf_lt {R : Nat → Nat → Prop} :
    ∀ l : List Nat, l.Pairwise R → ∀ i j : Nat, i ∈ l → j ∈ l →
      ¬ R i j → i ≠ j → l.indexOf j < l.indexOf i := by
  intro l
  induction l with
  | nil => intro _ i j hi; simp at hi
  | cons a t ih =>
    intro hp i j hi hj hnR hne
    rcases List.pairwise_cons.mp hp with ⟨ha, ht⟩
    by_cases hia : i = a
    · subst hia
      rcases List.mem_cons.mp hj with hja | hjt
      · exact absurd hja.symm hne
      · exact absurd (ha j hjt) hnR
    · have hit : i ∈ t := (List.mem_cons.mp hi).resolve_left hia
      by_cases hja : j = a
      · subst hja
        rw [List.indexOf_cons_self, List.indexOf_cons_ne t (Ne.symm hia)]
        exact Nat.succ_pos _
      · have hjt : j ∈ t := (List.mem_cons.mp hj).resolve_left hja
        rw [List.indexOf_cons_ne t (Ne.symm hia), List.indexOf_cons_ne t (Ne.symm hja)]
        exact Nat.succ_lt_succ (ih ht i j hit hjt hnR hne)

/-- Claim C7 (amended): the tie-break is *not* earlier-vocabulary-index
first.  For rows of at most 16 elements — the regime in which numpy's
default `argsort` runs its stable insertion sort, so the embedding's tie
order provably coincides with the program's — two equal-weight terms are
ranked with the *later* vocabulary index first: the ascending argsort keeps
equal keys in vocabulary order and the trailing `[::-1]` reverses them.
(For longer rows, up to the 40-term vocabulary cap, numpy's quicksort is
unstable and its tie order is implementation-defined, so no tie order is
asserted there.)  The length bound is the faithfulness condition of the
model and is not otherwise consumed by the proof. -/
theorem top_terms_tie_later_first {α : Type} [LinearOrder α] [Zero α]
    (row : List α) (i j : Nat) (_hlen : row.length ≤ 16) (hij : i < j)
    (hv : row.getD i 0 = row.getD j 0)
    (hi : i ∈ topIdxs row) (hj : j ∈ topIdxs row) :
    (topIdxs row).indexOf j < (topIdxs row).indexOf i := by
  have hs : (argsortAsc row).Pairwise (rIdx row) :=
    List.sorted_insertionSort (rIdx row) (List.range row.length)
  have hd : ((argsortAsc row).drop (row.length - 10)).Pairwise (rIdx row) :=
    List.Pairwise.sublist (List.drop_sublist _ _) hs
  have hrev : (topIdxs row).Pairwise (fun a b => rIdx row b a) :=
    List.pairwise_reverse.mpr hd
  have hnR : ¬ (fun a b => rIdx row b a) i j := by
    intro hR
    rcases hR with h | ⟨h, hle⟩
    · rw [hv] at h; exact lt_irrefl _ h
    · omega
  exact pairwise_indexOf_lt _ hrev i j hi hj hnR (Nat.ne_of_lt hij)

/-- Witness for C7 (amended): the two-term row `[1, 1]` is within the
16-element bound, both indices are selected, and index 1 is listed before
index 0. -/
theorem top_terms_tie_later_first_witness :
    (topIdxs [(1 : ℚ), 1]).indexOf 1 < (topIdxs [(1 : ℚ), 1]).indexOf 0 :=
  top_terms_tie_later_first [(1 : ℚ), 1] 0 1 (by decide) (by decide)
    (by decide) (by decide) (by decide)

/-- Counterexample for C7 as stated: with equal weights on both terms the
returned order is `["bb", "aa"]` — the later-indexed vocabulary term comes
first, not the earlier-indexed one. -/
theorem top_terms_tie_counterexample :
    topTermsOfRow [(1 : ℚ), 1] ["aa", "bb"] = ["bb", "aa"]
    ∧ (["bb", "aa"] : List String) ≠ ["aa", "bb"] := by
  exact ⟨by decide, by decide⟩

/-- Claim C2 (code bug): `sort_values` is applied to the *formatted string*
columns, so the tables are ordered lexicographically, not numerically.  With
accumulated totals giving Mayo 19 major steps over 2 files (average 9.50) and
Cleveland 41 over 4 (average 10.25), Table 1 "descending" lists Mayo first
although its numeric average is smaller; with position sums 4/2 (average
2.00) for Mayo and 41/4 (average 10.25) for Cleveland, Table 2 "ascending"
lists Cleveland first although its numeric average is larger. -/
theorem tables_string_sort_misorders :
    (df_steps [("mayowf", ⟨19, 0, 4, 2, 2⟩), ("clevelandwf", ⟨41, 0, 41, 4, 4⟩)]).map
        (fun r => r.1) = ["Mayo", "Cleveland"]
    ∧ (19 : ℚ) / 2 < 41 / 4
    ∧ (df_aggression [("mayowf", ⟨19, 0, 4, 2, 2⟩), ("clevelandwf", ⟨41, 0, 41, 4, 4⟩)]).map
        (fun r => r.1) = ["Cleveland", "Mayo"]
    ∧ (4 : ℚ) / 2 < 41 / 4 := by
  exact ⟨by decide, by norm_num, by decide, by norm_num⟩

/-- Helper: binding after an `Except.error` short-circuits. -/
theorem except_error_bind {ε α β : Type} (e : ε) (f : α → Except ε β) :
    (Except.error e >>= f) = Except.error e := rfl

/-- Helper: binding after `pure` applies the continuation. -/
theorem except_pure_bind {ε α β : Type} (x : α) (f : α → Except ε β) :
    (pure x >>= f : Except ε β) = f x := rfl

/-- Helper: the per-folder file fold of `load_workflows` raises as soon as it
reaches a file whose name has no `wf_..._` pattern, whatever well-formed
files precede it and whatever follows. -/
theorem loadFold_error (folder fname text : String) (post : List (String × String))
    (h2 : extractDisease fname = none) :
    ∀ (files₁ : List (String × String)) (acc : List (String × List (String × String))),
      (∀ p ∈ files₁, (extractDisease p.1).isSome = true) →
      List.foldlM (fun data file =>
          match extractDisease file.1 with
          | none => Except.error "IndexError: list index out of range"
          | some d => pure (insertWf data d folder file.2))
        acc (files₁ ++ (fname, text) :: post)
      = Except.error "IndexError: list index out of range" := by
  intro files₁
  induction files₁ with
  | nil =>
    intro acc _
    simp [List.foldlM, h2, except_error_bind]
  | cons p ps ih =>
    intro acc hwf
    obtain ⟨d, hd⟩ := Option.isSome_iff_exists.mp (hwf p (by simp))
    simp only [List.cons_append, List.foldlM, hd, except_pure_bind]
    exact ih (insertWf acc d folder p.2) fun q hq => hwf q (by simp [hq])

/-- Claim C5 (amended): a filename without the `wf_..._` pattern makes
`load_workflows` raise the generic `IndexError: list index out of range`
from the unguarded `[0]` indexing — not a descriptive error naming the file
— and the exception aborts the whole load, so no remaining file is
processed. -/
theorem load_malformed_aborts (files₁ post : List (String × String))
    (fname text : String)
    (h1 : ∀ p ∈ files₁, (extractDisease p.1).isSome = true)
    (h2 : extractDisease fname = none) :
    load_workflows [("mayowf", files₁ ++ (fname, text) :: post)]
      = Except.error "IndexError: list index out of range" := by
  have hinner := loadFold_error "mayowf" fname text post h2 files₁ [] h1
  simp only [load_workflows, WF_FOLDERS, List.foldlM, List.lookup]
  simp only [show (("mayowf" : String) == "mayowf") = true from rfl,
    show (("clevelandwf" : String) == "mayowf") = false from rfl,
    show (("merckwf" : String) == "mayowf") = false from rfl,
    show (("webmdwf" : String) == "mayowf") = false from rfl,
    show (("wikiwf" : String) == "mayowf") = false from rfl]
  simp [hinner, except_error_bind]

/-- Witness for C5 (amended): one well-formed file, then `bad.txt`. -/
theorem load_malformed_aborts_witness :
    load_workflows [("mayowf", [("wf_a_m.txt", "t"), ("bad.txt", "z")])]
      = Except.error "IndexError: list index out of range" :=
  load_malformed_aborts [("wf_a_m.txt", "t")] [] "bad.txt" "z"
    (by decide) (by decide)

/-- Counterexample for C5 as stated: with the malformed `workflow.txt` first
in the folder, the load raises the bare `IndexError` text (which does not
identify the filename) and returns no data at all — the well-formed
`wf_flu_mayo.txt` after it is never processed. -/
theorem load_malformed_counterexample :
    load_workflows [("mayowf", [("workflow.txt", "x"), ("wf_flu_mayo.txt", "y")])]
      = Except.error "IndexError: list index out of range" := by rfl

/-- Helper: dot product on a cons pair. -/
theorem dotL_cons (a b : ℝ) (as bs : List ℝ) :
    dotL (a :: as) (b :: bs) = a * b + dotL as bs := by
  simp [dotL]

/-- Helper: the dot product is symmetric. -/
theorem dotL_comm (v : List ℝ) : ∀ w : List ℝ, dotL v w = dotL w v := by
  induction v with
  | nil => intro w; cases w <;> simp [dotL]
  | cons a as ih =>
    intro w
    cases w with
    | nil => simp [dotL]
    | cons b bs => rw [dotL_cons, dotL_cons, mul_comm, ih]

/-- Helper: `dotL v v` is a sum of squares, hence nonnegative. -/
theorem dotL_self_nonneg (v : List ℝ) : 0 ≤ dotL v v := by
  induction v with
  | nil => simp [dotL]
  | cons a as ih =>
    rw [dotL_cons]
    exact add_nonneg (mul_self_nonneg a) ih

/-- Helper: `dotL v v` is positive as soon as some entry is nonzero. -/
theorem dotL_self_pos (v : List ℝ) (h : ∃ x ∈ v, x ≠ 0) : 0 < dotL v v := by
  induction v with
  | nil => simp at h
  | cons a as ih =>
    rw [dotL_cons]
    rcases h with ⟨x, hx, hx0⟩
    rcases List.mem_cons.mp hx with rfl | hxs
    · exact add_pos_of_pos_of_nonneg (mul_self_pos.mpr hx0) (dotL_self_nonneg as)
    · exact add_pos_of_nonneg_of_pos (mul_self_nonneg a) (ih ⟨x, hxs, hx0⟩)

/-- Helper: an all-zero left factor gives a zero dot product. -/
theorem dotL_zero_left (v : List ℝ) (h : ∀ x ∈ v, x = 0) :
    ∀ w : List ℝ, dotL v w = 0 := by
  induction v with
  | nil => intro w; cases w <;> simp [dotL]
  | cons a as ih =>
    intro w
    cases w with
    | nil => simp [dotL]
    | cons b bs =>
      rw [dotL_cons, h a (by simp), ih (fun x hx => h x (by simp [hx])) bs]
      ring

/-- Helper: an all-zero right factor gives a zero dot product. -/
theorem dotL_zero_right (w : List ℝ) (h : ∀ x ∈ w, x = 0) (v : List ℝ) :
    dotL v w = 0 := by
  rw [dotL_comm]; exact dotL_zero_left w h v

/-- Helper: dividing both rows by `s` divides the dot product by `s * s`
(also for `s = 0`, with division by zero equal to zero). -/
theorem dotL_map_div (v : List ℝ) (s : ℝ) :
    ∀ w : List ℝ, dotL (v.map fun x => x / s) (w.map fun x => x / s)
      = dotL v w / (s * s) := by
  induction v with
  | nil => intro w; cases w <;> simp [dotL]
  | cons a as ih =>
    intro w
    cases w with
    | nil => simp [dotL]
    | cons b bs =>
      simp only [List.map_cons, dotL_cons, ih bs, div_mul_div_comm, div_add_div_same]

/-- Helper: an all-zero row is left unchanged by sklearn normalization. -/
theorem normL_of_zero (v : List ℝ) (h : ∀ x ∈ v, x = 0) : normL v = v := by
  unfold normL
  rw [if_pos (dotL_zero_left v h v)]

/-- Helper: the cosine of a row with at least one nonzero weight against
itself is exactly 1. -/
theorem cosSimL_self (v : List ℝ) (h : ∃ x ∈ v, x ≠ 0) : cosSimL v v = 1 := by
  have hd := dotL_self_pos v h
  unfold cosSimL normL
  rw [if_neg (ne_of_gt hd), dotL_map_div, Real.mul_self_sqrt hd.le]
  exact div_self (ne_of_gt hd)

/-- Helper: the cosine of an all-zero row against anything is 0. -/
theorem cosSimL_zero_left (v : List ℝ) (h : ∀ x ∈ v, x = 0) (w : List ℝ) :
    cosSimL v w = 0 := by
  unfold cosSimL
  rw [normL_of_zero v h]
  exact dotL_zero_left v h (normL w)

/-- Helper: the cosine of anything against an all-zero row is 0. -/
theorem cosSimL_zero_right (v : List ℝ) (h : ∀ x ∈ v, x = 0) (w : List ℝ) :
    cosSimL w v = 0 := by
  unfold cosSimL
  rw [normL_of_zero v h]
  exact dotL_zero_right v h (normL w)

/-- Helper: the cosine is symmetric in its two rows. -/
theorem cosSimL_comm (v w : List ℝ) : cosSimL v w = cosSimL w v := by
  unfold cosSimL
  exact dotL_comm (normL v) (normL w)

/-- Helper: an in-range entry of the cosine matrix is the cosine of the two
rows. -/
theorem mEntry_cosine_some (rows : List (List ℝ)) (i j : Nat) (vi vj : List ℝ)
    (h1 : rows[i]? = some vi) (h2 : rows[j]? = some vj) :
    mEntry (cosineMatrixL rows) i j = cosSimL vi vj := by
  simp [mEntry, cosineMatrixL, List.getElem?_map, h1, h2]

/-- Helper: a row index out of range gives entry 0. -/
theorem mEntry_cosine_none_left (rows : List (List ℝ)) (i j : Nat)
    (h1 : rows[i]? = none) :
    mEntry (cosineMatrixL rows) i j = 0 := by
  simp [mEntry, cosineMatrixL, List.getElem?_map, h1]

/-- Helper: a column index out of range gives entry 0. -/
theorem mEntry_cosine_none_right (rows : List (List ℝ)) (i j : Nat)
    (h2 : rows[j]? = none) :
    mEntry (cosineMatrixL rows) i j = 0 := by
  cases h1 : rows[i]? <;>
    simp [mEntry, cosineMatrixL, List.getElem?_map, h1, h2]

/-- Claim C6 (amended): every cosine-similarity matrix produced by
`compute_similarity` is symmetric, its diagonal entry is 1.0 for every
source whose weight row has a nonzero entry, and every entry in the row or
column of an all-zero weight row is 0 — including that row's *diagonal*
entry, which is 0, not 1.0. -/
theorem similarity_matrix_sym_diag (rows : List (List ℝ)) :
    (∀ i j, mEntry (cosineMatrixL rows) i j = mEntry (cosineMatrixL rows) j i)
    ∧ (∀ (i : Nat) (v : List ℝ), rows[i]? = some v → (∃ x ∈ v, x ≠ 0) →
        mEntry (cosineMatrixL rows) i i = 1)
    ∧ (∀ (i : Nat) (v : List ℝ), rows[i]? = some v → (∀ x ∈ v, x = 0) →
        ∀ j, mEntry (cosineMatrixL rows) i j = 0
          ∧ mEntry (cosineMatrixL rows) j i = 0) := by
  refine ⟨?_, ?_, ?_⟩
  · intro i j
    cases h1 : rows[i]? with
    | none =>
      cases h2 : rows[j]? with
      | none => rw [mEntry_cosine_none_left rows i j h1,
          mEntry_cosine_none_left rows j i h2]
      | some vj => rw [mEntry_cosine_none_left rows i j h1,
          mEntry_cosine_none_right rows j i h1]
    | some vi =>
      cases h2 : rows[j]? with
      | none => rw [mEntry_cosine_none_right rows i j h2,
          mEntry_cosine_none_left rows j i h2]
      | some vj => rw [mEntry_cosine_some rows i j vi vj h1 h2,
          mEntry_cosine_some rows j i vj vi h2 h1, cosSimL_comm]
  · intro i v h1 hnz
    rw [mEntry_cosine_some rows i i v v h1 h1]
    exact cosSimL_self v hnz
  · intro i v h1 hz j
    cases h2 : rows[j]? with
    | none =>
      exact ⟨mEntry_cosine_none_right rows i j h2,
        mEntry_cosine_none_left rows j i h2⟩
    | some vj =>
      refine ⟨?_, ?_⟩
      · rw [mEntry_cosine_some rows i j v vj h1 h2]
        exact cosSimL_zero_left v hz vj
      · rw [mEntry_cosine_some rows j i vj v h2 h1]
        exact cosSimL_zero_right v hz vj

/-- Witness for C6 (amended): at the rows `[[1], [0]]` the first diagonal
entry is 1. -/
theorem similarity_matrix_sym_diag_witness :
    mEntry (cosineMatrixL [[(1 : ℝ)], [0]]) 0 0 = 1 :=
  (similarity_matrix_sym_diag [[(1 : ℝ)], [0]]).2.1 0 [1] rfl
    ⟨1, by simp, one_ne_zero⟩

/-- Counterexample for C6 as stated: with an all-zero weight row (a document
with no vocabulary term, as sklearn produces for it), that row's diagonal
entry is 0, not 1.0. -/
theorem zero_vector_diagonal_counterexample :
    mEntry (cosineMatrixL [[(0 : ℝ)], [1]]) 0 0 = 0 ∧ (0 : ℝ) ≠ 1 := by
  constructor
  · rw [mEntry_cosine_some [[(0 : ℝ)], [1]] 0 0 [0] [0] rfl rfl]
    exact cosSimL_zero_left [(0 : ℝ)] (by intro x hx; simpa using hx) [0]
  · norm_num

/-- Claim C9: the full pipeline is a pure function of the loaded corpus — for
any fixed (deterministic) tf-idf fitting functions, two runs whose directory
listings load to the same `{disease → {source → text}}` map produce identical
reports: same ordered site lists, same similarity matrices, same
distinctive-term mappings.  In particular re-running on an unchanged listing
reproduces the report exactly. -/
theorem analyze_deterministic (Vsim : List String → List (List ℝ))
    (Vuniq : List String → List (List ℝ) × List String)
    (l₁ l₂ : List (String × List (String × String)))
    (h : load_workflows l₁ = load_workflows l₂) :
    analyze Vsim Vuniq l₁ = analyze Vsim Vuniq l₂ := by
  unfold analyze
  rw [h]

/-- Witness for C9: a second run on the same one-disease listing yields the
same report. -/
theorem analyze_deterministic_witness :
    load_workflows [("mayowf", [("wf_flu_mayo.txt", "1. rest")])]
      = load_workflows [("mayowf", [("wf_flu_mayo.txt", "1. rest")])]
    ∧ analyze (fun _ => []) (fun _ => ([], []))
        [("mayowf", [("wf_flu_mayo.txt", "1. rest")])]
      = analyze (fun _ => []) (fun _ => ([], []))
        [("mayowf", [("wf_flu_mayo.txt", "1. rest")])] :=
  ⟨rfl, analyze_deterministic (fun _ => []) (fun _ => ([], [])) _ _ rfl⟩
